import Mathlib

/-!
Verification of the `GitHubService` API-access layer of the `commonsku`
repository (TypeScript sources under `src/`).

The embedding below translates the service in `src/unnamed/part_001`
(the full variant, with rate-limit tracking, caching and pagination;
its cache and pagination code is shared verbatim with
`src/src/githubService.ts`) into pure Lean functions:

* JavaScript numbers that hold counters, epochs and limits become `Int`
  (with `Nat` for item counts), `null` becomes `Option`;
* the outbound transport (Octokit / axios) is an oracle supplied as an
  argument: a paged list endpoint is a function `page → per_page → items`,
  a fallible single call is an `Except` value, and the rate-limit
  endpoint's reply is an `Option` (with `none` for a failed request);
* `Date.now()` is an explicit `nowMs : Int` parameter
  (`Math.floor(Date.now() / 1000)` becomes `Int.fdiv nowMs 1000`);
* a thrown JavaScript exception becomes an `Except.error` (or an
  explicit `thrown` flag where control flow matters);
* `setTimeout` sleeping is recorded as an explicit `slept` duration
  in milliseconds rather than performed.
-/

/-! ### Pagination engine: `GitHubService.getRepoContributors`
(`src/unnamed/part_001` lines 244-297, identical logic in
`src/src/githubService.ts` lines 165-218). -/

/-- One iteration step of the `for (currentPage = 1; currentPage <= totalPages; ...)`
loop of `getRepoContributors`.  `pagesLeft` is the number of loop iterations
still permitted (`totalPages - currentPage + 1` at entry), so the structural
recursion mirrors the loop bound exactly.  The accumulator is
`resultContributors`; the second component of the result counts the transport
calls issued.  `itemsNeeded` is computed in `Int` as in the source
(`limit - resultContributors.length` for the last page, `perPage` otherwise)
and the loop breaks when it is `≤ 0` or when a page returns fewer items than
requested. -/
def contribLoop (fetch : Nat → Nat → List α) (limit perPage totalPages : Int) :
    Nat → Nat → List α → Nat → List α × Nat
  | 0, _, acc, calls => (acc, calls)
  | pagesLeft + 1, currentPage, acc, calls =>
    let itemsNeeded : Int :=
      if (currentPage : Int) = totalPages then limit - acc.length else perPage
    if itemsNeeded ≤ 0 then (acc, calls)
    else
      let items := fetch currentPage itemsNeeded.toNat
      if items.length < itemsNeeded.toNat then (acc ++ items, calls + 1)
      else contribLoop fetch limit perPage totalPages pagesLeft (currentPage + 1)
        (acc ++ items) (calls + 1)

/-- Ceiling division on `Nat`, the value of `Math.ceil(a / b)` for
non-negative integers when `b > 0` (used for `totalPages`). -/
def jsCeilDiv (a b : Nat) : Nat := (a + b - 1) / b

/-- `GitHubService.getRepoContributors` with the transport abstracted as
`fetch page per_page = items`.  Returns the collected items together with the
number of transport calls issued.  Mirrors the source: early return on
`limit <= 0`, `perPage = Math.min(100, limit)`,
`totalPages = Math.ceil(limit / perPage)`, then the page loop. -/
def getRepoContributors (fetch : Nat → Nat → List α) (limit : Int) :
    List α × Nat :=
  if limit ≤ 0 then ([], 0)
  else
    let l : Nat := limit.toNat
    let perPage : Nat := min 100 l
    let totalPages : Nat := jsCeilDiv l perPage
    contribLoop fetch limit (perPage : Int) (totalPages : Int) totalPages 1 [] 0

/-- An upstream source holding exactly `total` items (numbered `0,…,total-1`)
and serving them page-by-page: a request for page `page` with page size `per`
returns the slice starting at offset `(page - 1) * per` of length at most
`per`.  This is the wire behaviour of a GitHub-style paged list endpoint. -/
def serve (total : Nat) (page per : Nat) : List Nat :=
  ((List.range total).drop ((page - 1) * per)).take per

/-- The loop issues at most `fuel` further transport calls. -/
theorem contribLoop_calls_le (fetch : Nat → Nat → List α)
    (limit perPage totalPages : Int) :
    ∀ (fuel page : Nat) (acc : List α) (calls : Nat),
      (contribLoop fetch limit perPage totalPages fuel page acc calls).2 ≤
        calls + fuel := by
  intro fuel
  induction fuel with
  | zero => intro page acc calls; simp [contribLoop]
  | succ n ih =>
    intro page acc calls
    simp only [contribLoop]
    generalize (if ((page : Nat) : Int) = totalPages
      then limit - ((acc.length : Nat) : Int) else perPage) = m
    by_cases h1 : m ≤ 0
    · simp only [if_pos h1]; omega
    · rw [if_neg h1]
      by_cases h2 : (fetch page m.toNat).length < m.toNat
      · simp only [if_pos h2]; omega
      · rw [if_neg h2]
        exact le_trans (ih (page + 1) _ (calls + 1)) (by omega)

/-- With one page of budget left, a page request for a positive
`itemsNeeded` always ends the loop after that single call. -/
theorem contribLoop_last_page (fetch : Nat → Nat → List α)
    (limit perPage totalPages : Int) (page : Nat) (acc : List α) (calls : Nat)
    (n : Int)
    (hn : n = if (page : Int) = totalPages then limit - (acc.length : Int) else perPage)
    (hpos : 0 < n) :
    contribLoop fetch limit perPage totalPages 1 page acc calls =
      (acc ++ fetch page n.toNat, calls + 1) := by
  simp only [contribLoop, ← hn, if_neg (by omega : ¬ n ≤ 0)]
  split <;> simp [contribLoop]

/-- As soon as a page returns fewer items than it requested, the loop stops:
no further page request is issued. -/
theorem contribLoop_stops_short (fetch : Nat → Nat → List α)
    (limit perPage totalPages : Int) (fuel page : Nat) (acc : List α)
    (calls : Nat) (n : Int)
    (hn : n = if (page : Int) = totalPages then limit - (acc.length : Int) else perPage)
    (hpos : 0 < n) (hshort : (fetch page n.toNat).length < n.toNat) :
    contribLoop fetch limit perPage totalPages (fuel + 1) page acc calls =
      (acc ++ fetch page n.toNat, calls + 1) := by
  simp only [contribLoop, ← hn, if_neg (by omega : ¬ n ≤ 0), if_pos hshort]

/-- A positive limit of at most 100 is served by a single page request for
exactly `limit` items. -/
theorem getRepoContributors_single_page (fetch : Nat → Nat → List α)
    (limit : Int) (h1 : 0 < limit) (h2 : limit ≤ 100) :
    getRepoContributors fetch limit = (fetch 1 limit.toNat, 1) := by
  have hl1 : 1 ≤ limit.toNat := by omega
  have hl2 : limit.toNat ≤ 100 := by omega
  have hmin : min 100 limit.toNat = limit.toNat := by omega
  have hceil : jsCeilDiv limit.toNat limit.toNat = 1 := by
    unfold jsCeilDiv
    have : limit.toNat + limit.toNat - 1 = limit.toNat * 1 + (limit.toNat - 1) := by
      omega
    rw [this, Nat.mul_add_div (by omega), Nat.div_eq_of_lt (by omega)]
  rw [getRepoContributors, if_neg (by omega)]
  simp only [hmin, hceil, Nat.cast_one]
  rw [contribLoop_last_page fetch limit (limit.toNat : Int) 1 1 [] 0 limit
      (by simp) h1]
  simp

/-- Number of items held by the paged `serve` source at a given request. -/
theorem serve_length (total page per : Nat) :
    (serve total page per).length = min per (total - (page - 1) * per) := by
  simp [serve]

set_option maxRecDepth 8000 in
/-- C1: the claim fails on the code.  With 100 items available upstream and
`limit = 150`, the engine returns 150 items (the shrunken last-page request
re-reads earlier upstream offsets), not `min 150 100 = 100`; and with 0 items
available and `limit = 1`, one transport call is issued although
`ceil(0 items / pageSize) = 0` calls are permitted by the claim. -/
theorem getRepoContributors_claim_counterexample :
    ((getRepoContributors (serve 100) 150).1.length = 150 ∧
      ¬ (getRepoContributors (serve 100) 150).1.length = min 150 100) ∧
    ((getRepoContributors (serve 0) 1).1.length = 0 ∧
      (getRepoContributors (serve 0) 1).2 = 1 ∧
      ¬ (getRepoContributors (serve 0) 1).2 ≤
          jsCeilDiv (getRepoContributors (serve 0) 1).1.length 1) := by
  decide

/-- C1 (amended): for `0 < limit ≤ 100` the engine performs exactly one
transport call and returns `min limit total` items from a paged source
holding `total` items; in general it issues at most `ceil(limit / pageSize)`
transport calls; and it stops issuing page requests as soon as a page
returns fewer items than it requested. -/
theorem getRepoContributors_amended :
    (∀ (total : Nat) (limit : Int), 0 < limit → limit ≤ 100 →
      (getRepoContributors (serve total) limit).1.length = min limit.toNat total ∧
      (getRepoContributors (serve total) limit).2 = 1) ∧
    (∀ {α : Type} (fetch : Nat → Nat → List α) (limit : Int),
      (getRepoContributors fetch limit).2 ≤
        jsCeilDiv limit.toNat (min 100 limit.toNat)) ∧
    (∀ {α : Type} (fetch : Nat → Nat → List α)
      (limit perPage totalPages : Int) (fuel page : Nat) (acc : List α)
      (calls : Nat) (n : Int),
      n = (if (page : Int) = totalPages then limit - (acc.length : Int) else perPage) →
      0 < n → (fetch page n.toNat).length < n.toNat →
      contribLoop fetch limit perPage totalPages (fuel + 1) page acc calls =
        (acc ++ fetch page n.toNat, calls + 1)) := by
  refine ⟨?_, ?_, ?_⟩
  · intro total limit h1 h2
    rw [getRepoContributors_single_page (serve total) limit h1 h2]
    simp [serve_length]
  · intro α fetch limit
    by_cases h : limit ≤ 0
    · simp [getRepoContributors, h]
    · rw [getRepoContributors, if_neg h]
      exact le_trans (contribLoop_calls_le fetch limit _ _ _ 1 [] 0) (by omega)
  · intro α fetch limit perPage totalPages fuel page acc calls n hn hpos hshort
    exact contribLoop_stops_short fetch limit perPage totalPages fuel page acc
      calls n hn hpos hshort

/-- Witness for the amended C1 theorem at `limit = 5` against a source
holding 3 items. -/
theorem getRepoContributors_amended_witness :
    (getRepoContributors (serve 3) 5).1.length = min (Int.toNat 5) 3 ∧
    (getRepoContributors (serve 3) 5).2 = 1 :=
  getRepoContributors_amended.1 3 5 (by decide) (by decide)

/-- C7: every `limit ≤ 0` returns the empty list with zero transport calls. -/
theorem getRepoContributors_nonpositive_limit {α : Type}
    (fetch : Nat → Nat → List α) (limit : Int) (h : limit ≤ 0) :
    getRepoContributors fetch limit = ([], 0) := by
  simp [getRepoContributors, h]

/-- Witness for C7 at `limit = -3`. -/
theorem getRepoContributors_nonpositive_limit_witness :
    getRepoContributors (serve 5) (-3) = ([], 0) :=
  getRepoContributors_nonpositive_limit (serve 5) (-3) (by decide)

/-! ### Rate Limit Tracker and Cache Layer
(`src/unnamed/part_001`: `checkRateLimit` lines 117-145, `updateRateLimit`
lines 150-158, `executeWithRateLimitProtection` lines 165-179, `withCache`
lines 187-202, facade operations lines 209-348). -/

/-- The two nullable instance fields `rateLimitRemaining` and
`rateLimitReset` (epoch seconds). -/
structure RLState where
  remaining : Option Int
  reset : Option Int
deriving DecidableEq

/-- The construction-time options after defaulting
(`enableCache ?? false`, `cacheTtl` already converted to milliseconds,
`rateLimitThreshold ?? 100`, `failOnRateLimit ?? false`). -/
structure Config where
  enableCache : Bool
  cacheTtl : Int
  rateLimitThreshold : Int
  failOnRateLimit : Bool
deriving DecidableEq

/-- `GitHubService.getRateLimit`.  The transport reply is the oracle
`resp`: `some (limit, remaining, reset)` models a successful
`octokit.rateLimit.get()`, `none` a transport failure (which the source
turns into a thrown `GitHubServiceError`, here `Except.error`).  On success
the internal tracking fields are overwritten with the authoritative
values as a side effect. -/
def getRateLimit (st : RLState) (resp : Option (Int × Int × Int)) :
    Except Unit (Int × Int × Int) × RLState :=
  match resp with
  | some r => (Except.ok r, { remaining := some r.2.1, reset := some r.2.2 })
  | none => (Except.error (), st)

/-- `GitHubService.updateRateLimit`: calls `getRateLimit` and stores its
`remaining`/`reset` on success; a failure is only logged, leaving the
tracked state exactly as it was. -/
def updateRateLimit (st : RLState) (resp : Option (Int × Int × Int)) :
    RLState :=
  (getRateLimit st resp).2

/-- Outcome of one `checkRateLimit` gate consultation: whether it threw
(`failOnRateLimit` path), how many milliseconds it slept, the tracked state
it left behind, and whether it attempted an authoritative refresh. -/
structure GateResult where
  thrown : Bool
  slept : Int
  st : RLState
  refreshAttempted : Bool
deriving DecidableEq

/-- `GitHubService.checkRateLimit`.  `nowSec` is
`Math.floor(Date.now() / 1000)`; `refreshResp` is the transport reply the
inline `updateRateLimit` would receive.  Structure of the source: early
return when `remaining` is `null` or above the threshold; inside the reset
window with `remaining <= 0` either throw (`failOnRateLimit`) or sleep
`(reset - now) * 1000 + 1000` ms; finally, since `remaining` is still at or
below the threshold, refresh the rate-limit data inline. -/
def checkRateLimit (cfg : Config) (st : RLState) (nowSec : Int)
    (refreshResp : Option (Int × Int × Int)) : GateResult :=
  match st.remaining with
  | none => ⟨false, 0, st, false⟩
  | some rem =>
    if cfg.rateLimitThreshold < rem then ⟨false, 0, st, false⟩
    else
      let window : Bool × Int :=
        match st.reset with
        | some reset =>
          if nowSec < reset then
            if rem ≤ 0 then
              if cfg.failOnRateLimit then (true, 0)
              else (false, (reset - nowSec) * 1000 + 1000)
            else (false, 0)
          else (false, 0)
        | none => (false, 0)
      if window.1 then ⟨true, 0, st, false⟩
      else ⟨false, window.2, updateRateLimit st refreshResp, true⟩

/-- Errors surfacing from a gated request: the gate's own rate-limit error
or a failure of the request itself. -/
inductive SvcErr (E : Type) where
  | rateLimited : SvcErr E
  | request : E → SvcErr E
deriving DecidableEq

/-- Everything one `executeWithRateLimitProtection` call did: its result,
the tracked state it left, sleep time, whether the request function was
invoked, and which refreshes were attempted. -/
structure ExecOut (E V : Type) where
  result : Except (SvcErr E) V
  rl : RLState
  slept : Int
  reqIssued : Bool
  gateRefreshAttempted : Bool
  postRefreshAttempted : Bool

/-- `GitHubService.executeWithRateLimitProtection`: consult the gate, run
the request, then either fire an asynchronous authoritative refresh (when
`remaining` is still unset) or decrement the local counter, flooring at 0.
`req` is the request function's outcome; `gateResp`/`postResp` are the
transport replies available to the two possible refreshes. -/
def executeWithRateLimitProtection (cfg : Config) (st : RLState)
    (nowSec : Int) (gateResp postResp : Option (Int × Int × Int))
    (req : Except E V) : ExecOut E V :=
  let g := checkRateLimit cfg st nowSec gateResp
  if g.thrown then
    ⟨Except.error SvcErr.rateLimited, g.st, g.slept, false,
      g.refreshAttempted, false⟩
  else
    match req with
    | Except.error e =>
      ⟨Except.error (SvcErr.request e), g.st, g.slept, true,
        g.refreshAttempted, false⟩
    | Except.ok v =>
      match g.st.remaining with
      | none =>
        ⟨Except.ok v, updateRateLimit g.st postResp, g.slept, true,
          g.refreshAttempted, true⟩
      | some rem =>
        ⟨Except.ok v, { g.st with remaining := some (max 0 (rem - 1)) },
          g.slept, true, g.refreshAttempted, false⟩

/-- One entry of the `Map<string, { data: any; expiry: number }>` cache. -/
structure CacheEntry (V : Type) where
  data : V
  expiry : Int
deriving DecidableEq

/-- The cache map, as an association list in which `cacheSet` replaces any
previous binding of the key (the semantics of `Map.prototype.set`). -/
abbrev CacheMap (V : Type) := List (String × CacheEntry V)

/-- `this.cache.get(key)`. -/
def cacheGet (c : CacheMap V) (k : String) : Option (CacheEntry V) :=
  (c.find? (fun p => p.1 == k)).map (fun p => p.2)

/-- `this.cache.set(key, entry)`. -/
def cacheSet (c : CacheMap V) (k : String) (e : CacheEntry V) : CacheMap V :=
  (k, e) :: c.filter (fun p => !(p.1 == k))

/-- The service's mutable state: the cache map plus the rate-limit fields. -/
structure SvcState (V : Type) where
  cache : CacheMap V
  rl : RLState
deriving DecidableEq

/-- Everything one `withCache` call did.  `exec` is `none` exactly when the
call was served from the cache (no transport activity at all); otherwise it
records the inner `executeWithRateLimitProtection` outcome.
`producerInvoked` says whether the producer (`fetchFn`) was invoked. -/
structure CacheOut (E V : Type) where
  result : Except (SvcErr E) V
  st : SvcState V
  producerInvoked : Bool
  exec : Option (ExecOut E V)

/-- `GitHubService.withCache`: with caching disabled, delegate to
`executeWithRateLimitProtection`; otherwise return a stored entry while
`cached.expiry > now`, and on a miss (or expired entry) run the producer
and store its result with expiry `now + cacheTtl`.  A failure of the
gated producer propagates and stores nothing. -/
def withCache (cfg : Config) (st : SvcState V) (nowMs : Int)
    (gateResp postResp : Option (Int × Int × Int)) (key : String)
    (req : Except E V) : CacheOut E V :=
  let miss : CacheOut E V :=
    let o := executeWithRateLimitProtection cfg st.rl (Int.fdiv nowMs 1000)
      gateResp postResp req
    match o.result with
    | Except.ok v =>
      ⟨Except.ok v,
        ⟨cacheSet st.cache key ⟨v, nowMs + cfg.cacheTtl⟩, o.rl⟩,
        o.reqIssued, some o⟩
    | Except.error err => ⟨Except.error err, ⟨st.cache, o.rl⟩, o.reqIssued, some o⟩
  if cfg.enableCache = false then
    let o := executeWithRateLimitProtection cfg st.rl (Int.fdiv nowMs 1000)
      gateResp postResp req
    ⟨o.result, ⟨st.cache, o.rl⟩, o.reqIssued, some o⟩
  else
    match cacheGet st.cache key with
    | some entry =>
      if nowMs < entry.expiry then
        ⟨Except.ok entry.data, st, false, none⟩
      else miss
    | none => miss

/-- `GitHubService.getUser`: cache key `user:<username>`. -/
def getUser (cfg : Config) (st : SvcState V) (nowMs : Int)
    (gateResp postResp : Option (Int × Int × Int)) (username : String)
    (req : Except E V) : CacheOut E V :=
  withCache cfg st nowMs gateResp postResp ("user:" ++ username) req

/-- `GitHubService.getRepo`: cache key `repo:<owner>/<repo>`. -/
def getRepo (cfg : Config) (st : SvcState V) (nowMs : Int)
    (gateResp postResp : Option (Int × Int × Int)) (owner repo : String)
    (req : Except E V) : CacheOut E V :=
  withCache cfg st nowMs gateResp postResp ("repo:" ++ owner ++ "/" ++ repo) req

/-- `GitHubService.getUserRepos`: the transport is called with `per_page`,
but the cache key `userRepos:<username>` does not mention it. -/
def getUserRepos (cfg : Config) (st : SvcState V) (nowMs : Int)
    (gateResp postResp : Option (Int × Int × Int)) (username : String)
    (per_page : Int) (fetch : Int → Except E V) : CacheOut E V :=
  withCache cfg st nowMs gateResp postResp ("userRepos:" ++ username)
    (fetch per_page)

/-! ### Outbound-call traces
Events recorded during one public operation, in program order: `gate` marks
a `checkRateLimit` consultation, `transport` an outbound HTTP call (the main
request, a pagination page, or a rate-limit refresh). -/

/-- An observable event of one public operation. -/
inductive Ev where
  | gate : Ev
  | transport : Ev
deriving DecidableEq

/-- Events of one `executeWithRateLimitProtection` call: the gate consult,
then the transport calls it actually issued (inline gate refresh, main
request, fire-and-forget post refresh), in program order. -/
def execTrace (o : ExecOut E V) : List Ev :=
  Ev.gate ::
    ((if o.gateRefreshAttempted then [Ev.transport] else []) ++
      (if o.reqIssued then [Ev.transport] else []) ++
      (if o.postRefreshAttempted then [Ev.transport] else []))

/-- Events of one `withCache` call: none on a cache hit, the inner
execute's events otherwise. -/
def cacheTrace (o : CacheOut E V) : List Ev :=
  match o.exec with
  | none => []
  | some e => execTrace e

/-- Events of one `getRepoContributors` call: the pagination loop invokes
the transport client directly once per page, and never consults the gate. -/
def contribTrace (fetch : Nat → Nat → List α) (limit : Int) : List Ev :=
  List.replicate (getRepoContributors fetch limit).2 Ev.transport

/-- Events of one public `getRateLimit` call: a single direct transport
call, with no gate consultation. -/
def rateLimitTrace : List Ev := [Ev.transport]

/-- A trace is gated when every transport call is preceded by an earlier
gate consultation. -/
def gateGated (tr : List Ev) : Prop :=
  ∀ i : Fin tr.length, tr.get i = Ev.transport →
    ∃ j : Fin tr.length, j.val < i.val ∧ tr.get j = Ev.gate

instance (tr : List Ev) : Decidable (gateGated tr) := by
  unfold gateGated
  infer_instance

/-- A trace that opens with a gate consultation is gated. -/
theorem gateGated_cons (l : List Ev) : gateGated (Ev.gate :: l) := by
  intro i hi
  rcases i with ⟨iv, hv⟩
  cases iv with
  | zero => simp at hi
  | succ j => exact ⟨⟨0, by omega⟩, by simp, rfl⟩

/-- Every `withCache` execution is gated: it either stays inside the cache
or opens with the gate consult of `executeWithRateLimitProtection`. -/
theorem gateGated_cacheTrace (o : CacheOut E V) : gateGated (cacheTrace o) := by
  unfold cacheTrace
  match o.exec with
  | none => intro i; exact absurd i.isLt (by simp)
  | some e => exact gateGated_cons _

/-- C2: the claim fails on the code.  `getRepoContributors` (here at
`limit = 1` against a source holding 5 items) reaches the transport client
from its pagination loop without any gate consultation, and the public
`getRateLimit` operation likewise calls the transport directly. -/
theorem gate_before_transport_counterexample :
    ¬ gateGated (contribTrace (serve 5) 1) ∧ ¬ gateGated rateLimitTrace := by
  decide

/-- C2 (amended): `getUser`, `getRepo` and `getUserRepos` consult the gate
before every transport call they issue, but `getRepoContributors` and the
public `getRateLimit` never consult the gate at all: each of their
transport calls is issued ungated. -/
theorem gate_before_transport_amended :
    (∀ (cfg : Config) (st : SvcState Nat) (nowMs : Int)
      (gateResp postResp : Option (Int × Int × Int)) (u : String)
      (req : Except Unit Nat),
      gateGated (cacheTrace (getUser cfg st nowMs gateResp postResp u req))) ∧
    (∀ (cfg : Config) (st : SvcState Nat) (nowMs : Int)
      (gateResp postResp : Option (Int × Int × Int)) (ow rp : String)
      (req : Except Unit Nat),
      gateGated (cacheTrace (getRepo cfg st nowMs gateResp postResp ow rp req))) ∧
    (∀ (cfg : Config) (st : SvcState Nat) (nowMs : Int)
      (gateResp postResp : Option (Int × Int × Int)) (u : String)
      (per_page : Int) (fetch : Int → Except Unit Nat),
      gateGated (cacheTrace
        (getUserRepos cfg st nowMs gateResp postResp u per_page fetch))) ∧
    (∀ (fetch : Nat → Nat → List Nat) (limit : Int),
      Ev.gate ∉ contribTrace fetch limit) ∧
    Ev.gate ∉ rateLimitTrace := by
  refine ⟨?_, ?_, ?_, ?_, ?_⟩
  · intro cfg st nowMs g p u req; exact gateGated_cacheTrace _
  · intro cfg st nowMs g p ow rp req; exact gateGated_cacheTrace _
  · intro cfg st nowMs g p u pp fetch; exact gateGated_cacheTrace _
  · intro fetch limit
    unfold contribTrace
    intro h
    have := List.eq_of_mem_replicate h
    exact absurd this (by decide)
  · decide

/-! ### Rate Limit Tracker gate behaviour -/

/-- A failed refresh leaves the tracked state exactly as it was. -/
theorem updateRateLimit_none (st : RLState) : updateRateLimit st none = st := rfl

/-- The gate leaves the tracked state unchanged when its inline refresh
gets no fresh data. -/
theorem checkRateLimit_none_st (cfg : Config) (st : RLState) (nowSec : Int) :
    (checkRateLimit cfg st nowSec none).st = st := by
  unfold checkRateLimit
  rcases st with ⟨_ | rem, _ | rst⟩ <;>
    simp only [updateRateLimit, getRateLimit] <;>
    split_ifs <;> rfl

/-- Whether the gate throws does not depend on the refresh reply: the
throw happens before the refresh. -/
theorem checkRateLimit_thrown_indep (cfg : Config) (st : RLState)
    (nowSec : Int) (r1 r2 : Option (Int × Int × Int)) :
    (checkRateLimit cfg st nowSec r1).thrown =
      (checkRateLimit cfg st nowSec r2).thrown := by
  unfold checkRateLimit
  rcases st with ⟨_ | rem, _ | rst⟩ <;>
    simp only [updateRateLimit, getRateLimit] <;>
    split_ifs <;> rfl

/-- C4: with the quota exhausted (`remaining = 0`) and the reset epoch in
the future, `failOnRateLimit = true` makes the gate throw immediately with
no sleeping and no state change, while `failOnRateLimit = false` makes it
sleep until exactly the reset instant plus the 1-second buffer and then
proceed without failing.  `0 ≤ rateLimitThreshold` holds for every sane
configuration (the default is 100). -/
theorem checkRateLimit_exhausted (cfg : Config) (r nowSec : Int)
    (resp : Option (Int × Int × Int)) (hth : 0 ≤ cfg.rateLimitThreshold)
    (hfut : nowSec < r) :
    (cfg.failOnRateLimit = true →
      checkRateLimit cfg ⟨some 0, some r⟩ nowSec resp =
        ⟨true, 0, ⟨some 0, some r⟩, false⟩) ∧
    (cfg.failOnRateLimit = false →
      (checkRateLimit cfg ⟨some 0, some r⟩ nowSec resp).thrown = false ∧
      nowSec * 1000 + (checkRateLimit cfg ⟨some 0, some r⟩ nowSec resp).slept =
        r * 1000 + 1000) := by
  constructor
  · intro hf
    simp [checkRateLimit, hf, if_neg (by omega : ¬ cfg.rateLimitThreshold < 0),
      if_pos hfut]
  · intro hf
    simp [checkRateLimit, hf, if_neg (by omega : ¬ cfg.rateLimitThreshold < 0),
      if_pos hfut]
    ring

/-- Witness for C4 with threshold 100, reset epoch 1000, now 900: the
failing configuration throws at once, the waiting configuration sleeps
until epoch-millisecond 1001000. -/
theorem checkRateLimit_exhausted_witness :
    checkRateLimit ⟨false, 300000, 100, true⟩ ⟨some 0, some 1000⟩ 900 none =
      ⟨true, 0, ⟨some 0, some 1000⟩, false⟩ ∧
    ((checkRateLimit ⟨false, 300000, 100, false⟩ ⟨some 0, some 1000⟩ 900
        none).thrown = false ∧
      900 * 1000 + (checkRateLimit ⟨false, 300000, 100, false⟩
        ⟨some 0, some 1000⟩ 900 none).slept = 1000 * 1000 + 1000) :=
  ⟨(checkRateLimit_exhausted ⟨false, 300000, 100, true⟩ 1000 900 none
      (by decide) (by decide)).1 rfl,
    (checkRateLimit_exhausted ⟨false, 300000, 100, false⟩ 1000 900 none
      (by decide) (by decide)).2 rfl⟩

/-- Characterization of the gated request's result: it is determined by the
gate's throw decision and the request outcome alone — in particular no
refresh outcome can change it. -/
theorem exec_result_eq (cfg : Config) (st : RLState) (nowSec : Int)
    (gr pr : Option (Int × Int × Int)) (req : Except E V) :
    (executeWithRateLimitProtection cfg st nowSec gr pr req).result =
      (if (checkRateLimit cfg st nowSec gr).thrown then
        Except.error SvcErr.rateLimited
      else
        match req with
        | Except.error e => Except.error (SvcErr.request e)
        | Except.ok v => Except.ok v) := by
  simp only [executeWithRateLimitProtection]
  split_ifs with h
  · rfl
  · cases req with
    | error e => rfl
    | ok v =>
      cases heq : (checkRateLimit cfg st nowSec gr).st.remaining <;> simp [heq]

/-- C8: the claim fails on the code.  With tracked `remaining = 50` (at or
below the threshold 100) and the reset epoch in the past, the gate attempts
a refresh; when that refresh fails, the tracker keeps `remaining = 50` — it
does not degrade to the unset state as the claim asserts. -/
theorem refresh_failure_counterexample :
    (checkRateLimit ⟨false, 300000, 100, false⟩ ⟨some 50, some 100⟩ 200
        none).refreshAttempted = true ∧
    (checkRateLimit ⟨false, 300000, 100, false⟩ ⟨some 50, some 100⟩ 200
        none).st.remaining = some 50 ∧
    some (50 : Int) ≠ (none : Option Int) := by
  decide

/-- C8 (amended): a failed refresh is swallowed — it leaves the tracked
state exactly as it was (unset stays unset, stale stays stale), the
triggering call's result is independent of any refresh outcome, and the
refresh is re-attempted on the next call: the gate re-attempts whenever the
tracked remaining is set and at or below the threshold, and a completed
call with the tracking still unset fires the asynchronous refresh. -/
theorem refresh_failure_amended :
    (∀ (st : RLState), updateRateLimit st none = st) ∧
    (∀ (cfg : Config) (st : RLState) (nowSec : Int)
      (g1 p1 g2 p2 : Option (Int × Int × Int)) (req : Except Unit Nat),
      (executeWithRateLimitProtection cfg st nowSec g1 p1 req).result =
        (executeWithRateLimitProtection cfg st nowSec g2 p2 req).result) ∧
    (∀ (cfg : Config) (st : RLState) (nowSec : Int)
      (resp : Option (Int × Int × Int)) (rem : Int),
      st.remaining = some rem → rem ≤ cfg.rateLimitThreshold →
      (checkRateLimit cfg st nowSec resp).thrown = false →
      (checkRateLimit cfg st nowSec resp).refreshAttempted = true) ∧
    (∀ (cfg : Config) (st : RLState) (nowSec : Int)
      (gr pr : Option (Int × Int × Int)) (v : Nat), st.remaining = none →
      (executeWithRateLimitProtection (E := Unit) cfg st nowSec gr pr
        (Except.ok v)).postRefreshAttempted = true) := by
  refine ⟨fun st => rfl, ?_, ?_, ?_⟩
  · intro cfg st nowSec g1 p1 g2 p2 req
    rw [exec_result_eq, exec_result_eq,
      checkRateLimit_thrown_indep cfg st nowSec g1 g2]
  · intro cfg st nowSec resp rem hrem hle hthr
    unfold checkRateLimit at hthr ⊢
    rw [hrem] at hthr ⊢
    simp only [if_neg (by omega : ¬ cfg.rateLimitThreshold < rem)] at hthr ⊢
    split_ifs at hthr ⊢ <;> rfl
  · intro cfg st nowSec gr pr v hnone
    unfold executeWithRateLimitProtection
    have hg : checkRateLimit cfg st nowSec gr = ⟨false, 0, st, false⟩ := by
      unfold checkRateLimit
      rw [show st.remaining = none from hnone]
    rw [hg]
    simp [hnone]

/-- Witness for the amended C8 theorem: a failed refresh at threshold,
and a post-call refresh fired from the unset state. -/
theorem refresh_failure_amended_witness :
    (checkRateLimit ⟨false, 300000, 100, false⟩ ⟨some 50, some 100⟩ 200
        none).refreshAttempted = true ∧
    (executeWithRateLimitProtection (E := Unit) ⟨false, 300000, 100, false⟩
        ⟨none, none⟩ 200 none none (Except.ok 7)).postRefreshAttempted = true :=
  ⟨refresh_failure_amended.2.2.1 ⟨false, 300000, 100, false⟩
      ⟨some 50, some 100⟩ 200 none 50 rfl (by decide) rfl,
    refresh_failure_amended.2.2.2 ⟨false, 300000, 100, false⟩
      ⟨none, none⟩ 200 none none 7 rfl⟩

/-- Without fresh authoritative data, one gated call can only keep or
decrement a set, non-negative remaining counter. -/
theorem exec_rl_noRefresh_step (cfg : Config) (st : RLState) (nowSec : Int)
    (req : Except E V) (r : Int) (hr : st.remaining = some r) (hr0 : 0 ≤ r) :
    ∃ r', (executeWithRateLimitProtection cfg st nowSec none none
        req).rl.remaining = some r' ∧ r' ≤ r ∧ 0 ≤ r' := by
  simp only [executeWithRateLimitProtection]
  have hst := checkRateLimit_none_st cfg st nowSec
  split_ifs with ht
  · exact ⟨r, by rw [hst, hr], le_refl r, hr0⟩
  · cases req with
    | error e => exact ⟨r, by rw [hst, hr], le_refl r, hr0⟩
    | ok v =>
      refine ⟨max 0 (r - 1), ?_, max_le hr0 (by omega), le_max_left 0 (r - 1)⟩
      rw [hst, hr]

/-- A sequence of gated calls, none of which receives fresh authoritative
rate-limit data (every refresh attempt fails). -/
structure ExecCall (E V : Type) where
  nowSec : Int
  req : Except E V

/-- Fold the tracked rate-limit state through a list of gated calls whose
refreshes all fail. -/
def runCallsNoRefresh (cfg : Config) : RLState → List (ExecCall E V) → RLState
  | st, [] => st
  | st, c :: cs =>
    runCallsNoRefresh cfg
      (executeWithRateLimitProtection cfg st c.nowSec none none c.req).rl cs

/-- C6: a set, non-negative remaining counter is monotonically
non-increasing across any sequence of calls that gets no authoritative
refresh data; a completed call (one whose request actually ran and
succeeded) decrements it by exactly 1, floored at 0; and a successful
authoritative `getRateLimit` overwrites both tracked fields with the
endpoint's values — the only way the counter increases. -/
theorem remaining_monotone_between_refreshes :
    (∀ (cfg : Config) (st : RLState) (nowSec : Int) (v : Nat) (r : Int),
      st.remaining = some r →
      (executeWithRateLimitProtection (E := Unit) cfg st nowSec none none
        (Except.ok v)).result = Except.ok v →
      (executeWithRateLimitProtection (E := Unit) cfg st nowSec none none
        (Except.ok v)).rl.remaining = some (max 0 (r - 1))) ∧
    (∀ (cfg : Config) (calls : List (ExecCall Unit Nat)) (st : RLState)
      (r : Int), st.remaining = some r → 0 ≤ r →
      ∃ r', (runCallsNoRefresh cfg st calls).remaining = some r' ∧ r' ≤ r) ∧
    (∀ (st : RLState) (l rem rs : Int),
      getRateLimit st (some (l, rem, rs)) =
        (Except.ok (l, rem, rs), ⟨some rem, some rs⟩)) := by
  refine ⟨?_, ?_, fun st l rem rs => rfl⟩
  · intro cfg st nowSec v r hr hok
    rw [exec_result_eq] at hok
    simp only [executeWithRateLimitProtection]
    split_ifs with ht
    · rw [if_pos ht] at hok
      exact absurd hok (by simp)
    · rw [checkRateLimit_none_st, hr]
  · intro cfg calls
    induction calls with
    | nil =>
      intro st r hr hr0
      exact ⟨r, hr, le_refl r⟩
    | cons c cs ih =>
      intro st r hr hr0
      obtain ⟨r1, h1, h2, h3⟩ :=
        exec_rl_noRefresh_step cfg st c.nowSec c.req r hr hr0
      have h30 : (0:Int) ≤ r1 := h3
      simp only [runCallsNoRefresh]
      obtain ⟨r', h1', h2'⟩ := ih _ r1 h1 h30
      exact ⟨r', h1', le_trans h2' h2⟩

/-- Witness for C6: from `remaining = 5000`, a completed call leaves 4999,
and two refresh-less calls leave at most 5000. -/
theorem remaining_monotone_between_refreshes_witness :
    (executeWithRateLimitProtection (E := Unit) ⟨false, 300000, 100, false⟩
        ⟨some 5000, some 1000⟩ 0 none none (Except.ok 7)).rl.remaining =
      some (max 0 (5000 - 1)) ∧
    (∃ r', (runCallsNoRefresh (E := Unit) (V := Nat)
        ⟨false, 300000, 100, false⟩ ⟨some 5000, some 1000⟩
        [⟨0, Except.ok 1⟩, ⟨1, Except.ok 2⟩]).remaining = some r' ∧
      r' ≤ 5000) :=
  ⟨remaining_monotone_between_refreshes.1 ⟨false, 300000, 100, false⟩
      ⟨some 5000, some 1000⟩ 0 7 5000 rfl rfl,
    remaining_monotone_between_refreshes.2.1 ⟨false, 300000, 100, false⟩
      [⟨0, Except.ok 1⟩, ⟨1, Except.ok 2⟩] ⟨some 5000, some 1000⟩ 5000 rfl
      (by decide)⟩

/-- `Map.set` followed by `Map.get` of the same key yields the new entry. -/
theorem cacheGet_cacheSet_self (c : CacheMap V) (k : String) (e : CacheEntry V) :
    cacheGet (cacheSet c k e) k = some e := by
  simp [cacheGet, cacheSet]

/-- When the gate proceeds, the gated request's own success comes back
unchanged. -/
theorem exec_result_ok {E V : Type} (cfg : Config) (st : RLState)
    (nowSec : Int) (gr pr : Option (Int × Int × Int)) (v : V)
    (hth : (checkRateLimit cfg st nowSec gr).thrown = false) :
    (executeWithRateLimitProtection (E := E) cfg st nowSec gr pr
      (Except.ok v)).result = Except.ok v := by
  rw [exec_result_eq, hth]
  simp

/-- The request function runs exactly when the gate does not throw. -/
theorem exec_reqIssued_eq {E V : Type} (cfg : Config) (st : RLState)
    (nowSec : Int) (gr pr : Option (Int × Int × Int)) (req : Except E V) :
    (executeWithRateLimitProtection cfg st nowSec gr pr req).reqIssued =
      !(checkRateLimit cfg st nowSec gr).thrown := by
  simp only [executeWithRateLimitProtection]
  split_ifs with h
  · simp [h]
  · rw [Bool.not_eq_true] at h
    cases req with
    | error e => simp [h]
    | ok v =>
      cases heq : (checkRateLimit cfg st nowSec gr).st.remaining <;> simp [heq, h]

/-- A `withCache` call that finds a fresh entry returns its data and does
nothing else. -/
theorem withCache_hit {E V : Type} (cfg : Config) (hc : cfg.enableCache = true)
    (st : SvcState V) (nowMs : Int) (gr pr : Option (Int × Int × Int))
    (key : String) (req : Except E V) (e : CacheEntry V)
    (hget : cacheGet st.cache key = some e) (hfresh : nowMs < e.expiry) :
    withCache cfg st nowMs gr pr key req =
      ⟨Except.ok e.data, st, false, none⟩ := by
  simp [withCache, hc, hget, hfresh]

/-- A `withCache` call that finds no entry, with a proceeding gate and a
successful producer, returns the produced value and stores it with expiry
`now + ttl`. -/
theorem withCache_store {E V : Type} (cfg : Config)
    (hc : cfg.enableCache = true) (st : SvcState V) (nowMs : Int)
    (gr pr : Option (Int × Int × Int)) (key : String) (v : V)
    (hget : cacheGet st.cache key = none)
    (hth : (checkRateLimit cfg st.rl (Int.fdiv nowMs 1000) gr).thrown = false) :
    withCache cfg st nowMs gr pr key (Except.ok (ε := E) v) =
      ⟨Except.ok v,
        ⟨cacheSet st.cache key ⟨v, nowMs + cfg.cacheTtl⟩,
          (executeWithRateLimitProtection cfg st.rl (Int.fdiv nowMs 1000) gr pr
            (Except.ok (ε := E) v)).rl⟩,
        true,
        some (executeWithRateLimitProtection cfg st.rl (Int.fdiv nowMs 1000)
          gr pr (Except.ok (ε := E) v))⟩ := by
  have hres := exec_result_ok (E := E) cfg st.rl (Int.fdiv nowMs 1000) gr pr v hth
  have hreq := exec_reqIssued_eq cfg st.rl (Int.fdiv nowMs 1000) gr pr
    (Except.ok (ε := E) v)
  rw [hth] at hreq
  simp [withCache, hc, hget]
  rw [hres]
  simp [hreq]

/-- Same as `withCache_store` for an entry that is already at or past its
expiry instant. -/
theorem withCache_store_expired {E V : Type} (cfg : Config)
    (hc : cfg.enableCache = true) (st : SvcState V) (nowMs : Int)
    (gr pr : Option (Int × Int × Int)) (key : String) (v : V)
    (e : CacheEntry V)
    (hget : cacheGet st.cache key = some e) (hexp : e.expiry ≤ nowMs)
    (hth : (checkRateLimit cfg st.rl (Int.fdiv nowMs 1000) gr).thrown = false) :
    withCache cfg st nowMs gr pr key (Except.ok (ε := E) v) =
      ⟨Except.ok v,
        ⟨cacheSet st.cache key ⟨v, nowMs + cfg.cacheTtl⟩,
          (executeWithRateLimitProtection cfg st.rl (Int.fdiv nowMs 1000) gr pr
            (Except.ok (ε := E) v)).rl⟩,
        true,
        some (executeWithRateLimitProtection cfg st.rl (Int.fdiv nowMs 1000)
          gr pr (Except.ok (ε := E) v))⟩ := by
  have hres := exec_result_ok (E := E) cfg st.rl (Int.fdiv nowMs 1000) gr pr v hth
  have hreq := exec_reqIssued_eq cfg st.rl (Int.fdiv nowMs 1000) gr pr
    (Except.ok (ε := E) v)
  rw [hth] at hreq
  simp [withCache, hc, hget, if_neg (by omega : ¬ nowMs < e.expiry)]
  rw [hres]
  simp [hreq]

/-- C3: with caching enabled, a stored entry is returned identically, with
no producer invocation and no state change, at any instant strictly before
its expiry; at or past the expiry instant the producer runs again and its
value overwrites the entry with expiry `now + ttl`; a freshly stored value
is returned unchanged, producer-free, strictly before its expiry; and a
call that performed no transport activity at all was served from an entry
that is strictly before its expiry — a stored value is never returned at or
past its expiry instant. -/
theorem withCache_ttl_contract :
    (∀ (cfg : Config) (st : SvcState Nat) (nowMs : Int)
      (gr pr : Option (Int × Int × Int)) (key : String)
      (req : Except Unit Nat) (e : CacheEntry Nat),
      cfg.enableCache = true →
      cacheGet st.cache key = some e → nowMs < e.expiry →
      withCache cfg st nowMs gr pr key req =
        ⟨Except.ok e.data, st, false, none⟩) ∧
    (∀ (cfg : Config) (st : SvcState Nat) (nowMs : Int)
      (gr pr : Option (Int × Int × Int)) (key : String) (v : Nat)
      (e : CacheEntry Nat),
      cfg.enableCache = true →
      cacheGet st.cache key = some e → e.expiry ≤ nowMs →
      (checkRateLimit cfg st.rl (Int.fdiv nowMs 1000) gr).thrown = false →
      (withCache cfg st nowMs gr pr key
          (Except.ok (ε := Unit) v)).result = Except.ok v ∧
      (withCache cfg st nowMs gr pr key
          (Except.ok (ε := Unit) v)).producerInvoked = true ∧
      cacheGet (withCache cfg st nowMs gr pr key
          (Except.ok (ε := Unit) v)).st.cache key =
        some ⟨v, nowMs + cfg.cacheTtl⟩) ∧
    (∀ (cfg : Config) (st : SvcState Nat) (t0 t1 : Int)
      (gr pr gr2 pr2 : Option (Int × Int × Int)) (key : String) (v : Nat)
      (req2 : Except Unit Nat),
      cfg.enableCache = true →
      cacheGet st.cache key = none →
      (checkRateLimit cfg st.rl (Int.fdiv t0 1000) gr).thrown = false →
      t1 < t0 + cfg.cacheTtl →
      (withCache cfg st t0 gr pr key (Except.ok (ε := Unit) v)).result =
        Except.ok v ∧
      withCache cfg (withCache cfg st t0 gr pr key
          (Except.ok (ε := Unit) v)).st t1 gr2 pr2 key req2 =
        ⟨Except.ok v,
          (withCache cfg st t0 gr pr key (Except.ok (ε := Unit) v)).st,
          false, none⟩) ∧
    (∀ (cfg : Config) (st : SvcState Nat) (nowMs : Int)
      (gr pr : Option (Int × Int × Int)) (key : String)
      (req : Except Unit Nat),
      cfg.enableCache = true →
      (withCache cfg st nowMs gr pr key req).exec = none →
      ∃ e, cacheGet st.cache key = some e ∧ nowMs < e.expiry ∧
        (withCache cfg st nowMs gr pr key req).result = Except.ok e.data) := by
  refine ⟨?_, ?_, ?_, ?_⟩
  · intro cfg st nowMs gr pr key req e hc hget hfresh
    exact withCache_hit cfg hc st nowMs gr pr key req e hget hfresh
  · intro cfg st nowMs gr pr key v e hc hget hexp hth
    rw [withCache_store_expired cfg hc st nowMs gr pr key v e hget hexp hth]
    exact ⟨rfl, rfl, cacheGet_cacheSet_self st.cache key _⟩
  · intro cfg st t0 t1 gr pr gr2 pr2 key v req2 hc hget hth hts
    rw [withCache_store cfg hc st t0 gr pr key v hget hth]
    constructor
    · rfl
    · exact withCache_hit cfg hc _ t1 gr2 pr2 key req2 ⟨v, t0 + cfg.cacheTtl⟩
        (cacheGet_cacheSet_self st.cache key _) hts
  · intro cfg st nowMs gr pr key req hc hexec
    rcases hget : cacheGet st.cache key with _ | e
    · cases hres : (executeWithRateLimitProtection cfg st.rl
          (Int.fdiv nowMs 1000) gr pr req).result with
      | ok v => simp [withCache, hc, hget, hres] at hexec
      | error e2 => simp [withCache, hc, hget, hres] at hexec
    · by_cases hfresh : nowMs < e.expiry
      · refine ⟨e, rfl, hfresh, ?_⟩
        rw [withCache_hit cfg hc st nowMs gr pr key req e hget hfresh]
      · cases hres : (executeWithRateLimitProtection cfg st.rl
            (Int.fdiv nowMs 1000) gr pr req).result with
        | ok v => simp [withCache, hc, hget, hfresh, hres] at hexec
        | error e2 => simp [withCache, hc, hget, hfresh, hres] at hexec

/-- Witness for C3: store 7 under `user:octocat` at `t = 0` with a 300000 ms
TTL, read it back at `t = 299999`. -/
theorem withCache_ttl_contract_witness :
    (withCache ⟨true, 300000, 100, false⟩ ⟨[], ⟨none, none⟩⟩ 0 none none
        "user:octocat" (Except.ok (ε := Unit) (7 : Nat))).result =
      Except.ok 7 ∧
    withCache ⟨true, 300000, 100, false⟩
        (withCache ⟨true, 300000, 100, false⟩ ⟨[], ⟨none, none⟩⟩ 0 none none
          "user:octocat" (Except.ok (ε := Unit) (7 : Nat))).st 299999 none none
        "user:octocat" (Except.error ()) =
      ⟨Except.ok 7,
        (withCache ⟨true, 300000, 100, false⟩ ⟨[], ⟨none, none⟩⟩ 0 none none
          "user:octocat" (Except.ok (ε := Unit) (7 : Nat))).st,
        false, none⟩ :=
  withCache_ttl_contract.2.2.1 ⟨true, 300000, 100, false⟩ ⟨[], ⟨none, none⟩⟩
    0 299999 none none none none "user:octocat" 7 (Except.error ()) rfl rfl
    rfl (by decide)

/-- C9: the claim fails on the code.  Starting at tracked `remaining = 50`
(at or below the threshold 100), the gate's inline authoritative refresh
succeeds (returning remaining 4000) before the producer throws; the failed
call therefore leaves `remaining = 4000 ≠ 50` even though the producer
threw.  The cache map is unchanged, as the claim says. -/
theorem atomic_failure_counterexample :
    (withCache ⟨true, 300000, 100, false⟩
        ⟨[], ⟨some 50, some 1000⟩⟩ 0 (some (5000, 4000, 2000)) none
        "user:octocat" (Except.error (ε := Unit) (α := Nat) ())).st.rl.remaining =
      some 4000 ∧
    some (4000 : Int) ≠ some (50 : Int) ∧
    (withCache ⟨true, 300000, 100, false⟩
        ⟨[], ⟨some 50, some 1000⟩⟩ 0 (some (5000, 4000, 2000)) none
        "user:octocat" (Except.error (ε := Unit) (α := Nat) ())).st.cache = [] := by
  decide

/-- C9 (amended): when the producer throws, the cache map is always left
unchanged, and the tracked state is exactly the state the gate left behind —
the post-call decrement never happens; in particular, when the gate got no
fresh refresh data, the tracked state is fully unchanged. -/
theorem atomic_failure_amended :
    (∀ (cfg : Config) (st : SvcState Nat) (nowMs : Int)
      (gr pr : Option (Int × Int × Int)) (key : String) (e : Unit),
      (withCache cfg st nowMs gr pr key
        (Except.error (α := Nat) e)).st.cache = st.cache) ∧
    (∀ (cfg : Config) (rl : RLState) (nowSec : Int)
      (gr pr : Option (Int × Int × Int)) (e : Unit),
      (executeWithRateLimitProtection (V := Nat) cfg rl nowSec gr pr
        (Except.error e)).rl = (checkRateLimit cfg rl nowSec gr).st) ∧
    (∀ (cfg : Config) (rl : RLState) (nowSec : Int)
      (pr : Option (Int × Int × Int)) (e : Unit),
      (executeWithRateLimitProtection (V := Nat) cfg rl nowSec none pr
        (Except.error e)).rl = rl) := by
  have hexe : ∀ (cfg : Config) (rl : RLState) (nowSec : Int)
      (gr pr : Option (Int × Int × Int)) (e : Unit),
      (executeWithRateLimitProtection (V := Nat) cfg rl nowSec gr pr
        (Except.error e)).rl = (checkRateLimit cfg rl nowSec gr).st := by
    intro cfg rl nowSec gr pr e
    simp only [executeWithRateLimitProtection]
    split_ifs with h <;> rfl
  refine ⟨?_, hexe, ?_⟩
  · intro cfg st nowMs gr pr key e
    by_cases hc : cfg.enableCache = false
    · cases hres : (executeWithRateLimitProtection cfg st.rl
          (Int.fdiv nowMs 1000) gr pr (Except.error (α := Nat) e)).result with
      | ok v => simp [withCache, hc, hres]
      | error e2 => simp [withCache, hc, hres]
    · rw [Bool.not_eq_false] at hc
      rcases hget : cacheGet st.cache key with _ | en
      · cases hres : (executeWithRateLimitProtection cfg st.rl
            (Int.fdiv nowMs 1000) gr pr (Except.error (α := Nat) e)).result with
        | ok v =>
          exact absurd hres (by
            rw [exec_result_eq]
            split_ifs <;> simp)
        | error e2 => simp [withCache, hc, hget, hres]
      · by_cases hfresh : nowMs < en.expiry
        · rw [withCache_hit cfg hc st nowMs gr pr key _ en hget hfresh]
        · cases hres : (executeWithRateLimitProtection cfg st.rl
              (Int.fdiv nowMs 1000) gr pr (Except.error (α := Nat) e)).result with
          | ok v =>
            exact absurd hres (by
              rw [exec_result_eq]
              split_ifs <;> simp)
          | error e2 => simp [withCache, hc, hget, hfresh, hres]
  · intro cfg rl nowSec pr e
    rw [hexe cfg rl nowSec none pr e, checkRateLimit_none_st]

/-- C10: the cache key of `getUserRepos` is `userRepos:<username>` and does
not mention `per_page`: after a first call with page size `p1` stores its
result, a second call with any other page size `p2`, issued strictly before
the entry's expiry, returns the first call's stored value, performs no
transport activity, and leaves the state untouched — `p2` has no effect. -/
theorem getUserRepos_cache_ignores_per_page (cfg : Config)
    (st : SvcState Nat) (u : String) (p1 p2 : Int)
    (fetch : Int → Except Unit Nat) (v : Nat) (t0 t1 : Int)
    (gr pr gr2 pr2 : Option (Int × Int × Int))
    (hc : cfg.enableCache = true)
    (hget : cacheGet st.cache ("userRepos:" ++ u) = none)
    (hth : (checkRateLimit cfg st.rl (Int.fdiv t0 1000) gr).thrown = false)
    (hfetch : fetch p1 = Except.ok v)
    (hts : t1 < t0 + cfg.cacheTtl)
    (_hne : p1 ≠ p2) :
    (getUserRepos cfg st t0 gr pr u p1 fetch).result = Except.ok v ∧
    getUserRepos cfg (getUserRepos cfg st t0 gr pr u p1 fetch).st t1 gr2 pr2
        u p2 fetch =
      ⟨Except.ok v, (getUserRepos cfg st t0 gr pr u p1 fetch).st,
        false, none⟩ := by
  unfold getUserRepos
  rw [hfetch, withCache_store cfg hc st t0 gr pr ("userRepos:" ++ u) v hget hth]
  exact ⟨rfl,
    withCache_hit cfg hc _ t1 gr2 pr2 ("userRepos:" ++ u) (fetch p2)
      ⟨v, t0 + cfg.cacheTtl⟩ (cacheGet_cacheSet_self st.cache _ _) hts⟩

/-- Witness for C10: page sizes 30 and 100 under username `octocat`. -/
theorem getUserRepos_cache_ignores_per_page_witness :
    (getUserRepos ⟨true, 300000, 100, false⟩ ⟨[], ⟨none, none⟩⟩ 0 none none
        "octocat" 30 (fun p => (Except.ok p.toNat : Except Unit Nat))).result = Except.ok 30 ∧
    getUserRepos ⟨true, 300000, 100, false⟩
        (getUserRepos ⟨true, 300000, 100, false⟩ ⟨[], ⟨none, none⟩⟩ 0 none
          none "octocat" 30 (fun p => (Except.ok p.toNat : Except Unit Nat))).st 299999 none none
        "octocat" 100 (fun p => (Except.ok p.toNat : Except Unit Nat)) =
      ⟨Except.ok 30,
        (getUserRepos ⟨true, 300000, 100, false⟩ ⟨[], ⟨none, none⟩⟩ 0 none
          none "octocat" 30 (fun p => (Except.ok p.toNat : Except Unit Nat))).st,
        false, none⟩ :=
  getUserRepos_cache_ignores_per_page ⟨true, 300000, 100, false⟩
    ⟨[], ⟨none, none⟩⟩ "octocat" 30 100 (fun p => (Except.ok p.toNat : Except Unit Nat)) 30 0
    299999 none none none none rfl rfl rfl rfl (by decide) (by decide)

/-! ### Error Normalizer
(`src/unnamed/part_001`: octokit variant `handleError` lines 103-110 —
identical in `src/src/githubService.ts` lines 93-100 — and axios variant
lines 609-626.) -/

/-- A thrown JavaScript `Error` as the handlers see it: its `message`, the
optional `response.status` it may expose, and the optional
`response.data.message` body field. -/
structure JsErr where
  message : String
  responseStatus : Option Int
  responseBodyMessage : Option String
deriving DecidableEq

/-- The `GitHubServiceError` produced by the octokit-variant handler. -/
structure GitHubServiceError where
  name : String
  context : String
  message : String
  status : Option Int
  causeMessage : String
deriving DecidableEq

/-- The octokit-variant `handleError`: a real `Error` is wrapped as
`GitHubServiceError(context, error, error.response?.status)`, whose message
is `` `${context}: ${originalError.message}` ``; a thrown non-`Error`
value (`none` here) is wrapped around a fresh
`Error('An unknown error occurred')`. -/
def handleError (error : Option JsErr) (context : String) :
    GitHubServiceError :=
  match error with
  | some err =>
    ⟨"GitHubServiceError", context, context ++ ": " ++ err.message,
      err.responseStatus, err.message⟩
  | none =>
    ⟨"GitHubServiceError", context,
      context ++ ": " ++ "An unknown error occurred", none,
      "An unknown error occurred"⟩

/-- What the axios-variant handler throws: either a plain `Error` carrying
only a message (note: no status field), or the original value rethrown. -/
inductive AxiosHandled where
  | wrapped : String → AxiosHandled
  | rethrown : JsErr → AxiosHandled
deriving DecidableEq

/-- The axios-variant `handleError`: for an axios error it prefers the
response body's `message` field (falling back to the transport message when
that field is absent or falsy, i.e. empty) and throws a plain `Error` with
`` `${context}: ${message}` ``; anything else is rethrown as-is. -/
def handleErrorAxios (isAxiosError : Bool) (err : JsErr) (context : String) :
    AxiosHandled :=
  if isAxiosError then
    let message :=
      match err.responseBodyMessage with
      | some m => if m = "" then err.message else m
      | none => err.message
    AxiosHandled.wrapped (context ++ ": " ++ message)
  else AxiosHandled.rethrown err

/-- Substring containment on strings. -/
def strContains (hay needle : String) : Prop := needle.data <:+: hay.data

instance (hay needle : String) : Decidable (strContains hay needle) :=
  List.decidableInfix needle.data hay.data

/-- A 404 as octokit throws it: a transport message, a response status and
a response body with its own human-readable message. -/
def notFoundErr : JsErr :=
  ⟨"Request failed with status code 404", some 404, some "Not Found"⟩

/-- C5: the claim fails on the code.  The (octokit) error handler wraps the
transport error's own message; even though the response body carries the
human-readable message `Not Found`, the normalized message is built from
the generic transport message, so the body message is not preferred — it
does not even occur in the result. -/
theorem handleError_counterexample :
    (handleError (some notFoundErr) "Failed to fetch user octocat").status =
      some 404 ∧
    notFoundErr.responseBodyMessage = some "Not Found" ∧
    (handleError (some notFoundErr) "Failed to fetch user octocat").message =
      "Failed to fetch user octocat: Request failed with status code 404" ∧
    (handleError (some notFoundErr) "Failed to fetch user octocat").message ≠
      "Failed to fetch user octocat" ++ ": " ++ "Not Found" ∧
    ¬ strContains
      (handleError (some notFoundErr) "Failed to fetch user octocat").message
      "Not Found" := by
  decide

/-- C5 (amended): the octokit handler's error keeps the exposed status and
its message contains the supplied context, but wraps the original error's
message verbatim — the response body message is not consulted; the axios
handler does prefer the response body message, but what it throws carries
no status field at all. -/
theorem handleError_amended :
    (∀ (err : JsErr) (ctx : String) (s : Int), err.responseStatus = some s →
      (handleError (some err) ctx).status = some s ∧
      strContains (handleError (some err) ctx).message ctx ∧
      (handleError (some err) ctx).message = ctx ++ ": " ++ err.message) ∧
    (∀ (err : JsErr) (ctx bm : String), err.responseBodyMessage = some bm →
      bm ≠ "" →
      handleErrorAxios true err ctx =
        AxiosHandled.wrapped (ctx ++ ": " ++ bm)) := by
  constructor
  · intro err ctx s hs
    refine ⟨by simp [handleError, hs], ?_, rfl⟩
    show ctx.data <:+: (ctx ++ ": " ++ err.message).data
    have h : (ctx ++ ": " ++ err.message).data =
        ctx.data ++ (": ".data ++ err.message.data) := by
      rw [String.data_append, String.data_append, List.append_assoc]
    rw [h]
    exact (List.prefix_append ctx.data _).isInfix
  · intro err ctx bm hbm hne
    simp [handleErrorAxios, hbm, hne]

/-- Witness for the amended C5 theorem on a 500 error with body message
`Server Error`. -/
theorem handleError_amended_witness :
    ((handleError (some ⟨"boom", some 500, some "Server Error"⟩)
        "Failed to fetch rate limit").status = some 500 ∧
      strContains (handleError (some ⟨"boom", some 500, some "Server Error"⟩)
        "Failed to fetch rate limit").message "Failed to fetch rate limit" ∧
      (handleError (some ⟨"boom", some 500, some "Server Error"⟩)
        "Failed to fetch rate limit").message =
        "Failed to fetch rate limit" ++ ": " ++ "boom") ∧
    handleErrorAxios true ⟨"boom", some 500, some "Server Error"⟩
        "Failed to fetch rate limit" =
      AxiosHandled.wrapped
        ("Failed to fetch rate limit" ++ ": " ++ "Server Error") :=
  ⟨handleError_amended.1 ⟨"boom", some 500, some "Server Error"⟩
      "Failed to fetch rate limit" 500 rfl,
    handleError_amended.2 ⟨"boom", some 500, some "Server Error"⟩
      "Failed to fetch rate limit" "Server Error" rfl (by decide)⟩

/-- Witness for the amended C2 theorem: a concrete `getUser` execution is
gated, a concrete contributors trace contains no gate event. -/
theorem gate_before_transport_amended_witness :
    gateGated (cacheTrace (getUser ⟨false, 300000, 100, false⟩
      ⟨[], ⟨none, none⟩⟩ 0 none none "octocat"
      (Except.ok (ε := Unit) (7 : Nat)))) ∧
    Ev.gate ∉ contribTrace (serve 5) 3 :=
  ⟨gate_before_transport_amended.1 ⟨false, 300000, 100, false⟩
      ⟨[], ⟨none, none⟩⟩ 0 none none "octocat" (Except.ok (ε := Unit) (7 : Nat)),
    gate_before_transport_amended.2.2.2.1 (serve 5) 3⟩
